import Mathlib

/-!
A shallow embedding of the application-lifecycle core of the ratatui-based
view framework (files src/app.rs and src/view.rs of the repository).

The embedding models the four process-wide mutable statics of src/app.rs
as one record, the public operations init, change_view and run as pure
state transformers, and the run loop as a structurally recursive function
driven by a finite list of per-iteration external results (one terminal
draw result and one event-source read result per iteration).  A panic of
the Rust code (an expect or unwrap on None) is modelled by a distinguished
outcome, never by a default value.  The run function additionally returns
the ordered list of observable actions it performed (terminal acquisition,
view swap, render, event read, event dispatch, terminal restore), so that
ordering claims of the specification can be stated about the trace.
-/

/-- Embeds struct App of src/app.rs: the application state holds only the
running flag. -/
structure App where
  is_running : Bool
deriving DecidableEq

/-- The four process-wide statics of src/app.rs gathered into one record:
APPLICATION (an RwLock over Option of App), VIEW (an RwLock over an optional
boxed dynamic view), and the two unsynchronized mutable statics of the
pending-swap slot, the flag CHANGE_VIEW and the slot NEXT_VIEW (their Rust
names carry a leading underscore).  Views are kept abstract as a type
parameter V, matching the dynamic trait object of the source. -/
structure Globals (V : Type) where
  APPLICATION : Option App
  VIEW : Option V
  CHANGE_VIEW : Bool
  NEXT_VIEW : Option V
deriving DecidableEq

/-- The three shared cells of the data model, as named by the spec. -/
inductive Cell where
  | APPLICATION
  | VIEW
  | pendingSwap
deriving DecidableEq

/-- The synchronization mechanism guarding a shared cell, read off the
static declarations of src/app.rs: APPLICATION and VIEW are declared as
RwLock statics; the pending-swap pair is declared as plain mutable statics
accessed inside unsafe blocks, with no lock of any kind. -/
inductive Guard where
  | rwlock
  | unsyncStaticMut
deriving DecidableEq

/-- Which guard the source declares for each shared cell (src/app.rs lines
27, 44, 46-47). -/
def guardOf : Cell → Guard
  | Cell.APPLICATION => Guard.rwlock
  | Cell.VIEW => Guard.rwlock
  | Cell.pendingSwap => Guard.unsyncStaticMut

/-- A lock or raw access performed by an operation on a shared cell. -/
inductive Access where
  | readLock (c : Cell)
  | writeLock (c : Cell)
  | unsyncRead (c : Cell)
  | unsyncWrite (c : Cell)
deriving DecidableEq

/-- Error payloads of the io Result type are opaque to the core; they are
modelled by a number. -/
abbrev IoError := Nat

/-- Decidable equality for Except values, needed so that concrete runs of
the model can be checked by evaluation. -/
def exceptDecEq {ε α : Type} [DecidableEq ε] [DecidableEq α] :
    (a b : Except ε α) → Decidable (a = b)
  | Except.ok a, Except.ok b =>
      if h : a = b then isTrue (by rw [h])
      else isFalse (fun hc => h (by injection hc))
  | Except.ok _, Except.error _ => isFalse (fun hc => Except.noConfusion hc)
  | Except.error _, Except.ok _ => isFalse (fun hc => Except.noConfusion hc)
  | Except.error e, Except.error f =>
      if h : e = f then isTrue (by rw [h])
      else isFalse (fun hc => h (by injection hc))

instance {ε α : Type} [DecidableEq ε] [DecidableEq α] :
    DecidableEq (Except ε α) := exceptDecEq

/-- Embeds init of src/app.rs: takes the VIEW write lock and sets the view
only if the cell is None, then takes the APPLICATION write lock and creates
App with is_running true only if that cell is None.  The two cells are
checked independently, exactly as in the source. -/
def init {V : Type} (view : V) (g : Globals V) : Globals V :=
  let g1 := if g.VIEW.isNone then { g with VIEW := some view } else g
  if g1.APPLICATION.isNone then
    { g1 with APPLICATION := some { is_running := true } }
  else g1

/-- Embeds change_view of src/app.rs, together with the list of shared-cell
accesses it performs.  It first takes a read lock on APPLICATION; if the
cell is None the source raises an unrecoverable failure, modelled by the
result none.  Otherwise it enters the unsafe block and reads the
CHANGE_VIEW flag: if a swap is already pending it returns at once, leaving
the state unchanged; otherwise it raises the flag and stores the view in
the NEXT_VIEW slot.  It never touches the VIEW cell. -/
def change_view {V : Type} (view : V) (g : Globals V) :
    List Access × Option (Globals V) :=
  if g.APPLICATION.isNone then
    ([Access.readLock Cell.APPLICATION], none)
  else if g.CHANGE_VIEW then
    ([Access.readLock Cell.APPLICATION, Access.unsyncRead Cell.pendingSwap],
     some g)
  else
    ([Access.readLock Cell.APPLICATION, Access.unsyncRead Cell.pendingSwap,
      Access.unsyncWrite Cell.pendingSwap],
     some { g with CHANGE_VIEW := true, NEXT_VIEW := some view })

/-- The effect of one call to a view's handle_events method, the only code
of a client view that can touch shared state.  The handler may replace its
own state (it runs under the VIEW write lock), call change_view any number
of times, write the is_running flag through the APPLICATION lock, and
finally return Ok or an io error.  This is the full capability surface the
View trait of src/view.rs grants a handler over the core. -/
structure HandlerResult (V E : Type) where
  newView : V
  viewChanges : List V
  setRunning : Option Bool
  returned : Except IoError Unit
deriving DecidableEq

/-- The results the external world supplies to one run-loop iteration: the
outcome of the terminal draw call and the outcome of the blocking
event-source read. -/
structure Env (E : Type) where
  drawResult : Except IoError Unit
  readResult : Except IoError E
deriving DecidableEq

/-- Observable actions of the run function, in the order performed. -/
inductive Act (V E : Type) where
  | acquireTerminal
  | swap (v : V)
  | render (v : V)
  | readEvent
  | dispatch (v : V) (e : E)
  | restore
deriving DecidableEq

/-- How a run terminates: normally (loop exited because is_running became
false), with a propagated io error, by an unrecoverable panic of an expect
or unwrap, or - an artifact of the finite model - because the supplied
event stream was exhausted while the loop still wanted to block on the
event source. -/
inductive RunExit where
  | ok
  | err (e : IoError)
  | panicked
  | blocked
deriving DecidableEq

/-- Embeds the swap block at the top of the run loop (src/app.rs lines
96-103): if CHANGE_VIEW is set, clear it, move the queued view out of
NEXT_VIEW into VIEW, and clear NEXT_VIEW.  The unwrap on the taken value
panics when the slot is empty, modelled by none.  Returns the new state and
the swapped-in view when a swap happened. -/
def swapStep {V : Type} (g : Globals V) : Option (Globals V × Option V) :=
  if g.CHANGE_VIEW then
    match g.NEXT_VIEW with
    | none => none
    | some nv =>
        some ({ g with CHANGE_VIEW := false, VIEW := some nv,
                       NEXT_VIEW := none }, some nv)
  else some (g, none)

/-- Trace actions contributed by the swap block. -/
def swapActions {V E : Type} : Option V → List (Act V E)
  | none => []
  | some w => [Act.swap w]

/-- Applies a handler's effects to the shared state: the view replaces its
own state in the VIEW cell, each change_view call is interpreted by the
embedded change_view in order, then any write of is_running is applied
through the APPLICATION cell.  A failure inside change_view propagates as
none. -/
def applyHandler {V E : Type} (g : Globals V) (hr : HandlerResult V E) :
    Option (Globals V) :=
  let afterSelf := { g with VIEW := some hr.newView }
  let afterChanges :=
    hr.viewChanges.foldl
      (fun acc w => acc.bind (fun a => (change_view w a).2)) (some afterSelf)
  afterChanges.map (fun g2 =>
    match hr.setRunning with
    | none => g2
    | some b => { g2 with APPLICATION := Option.map (fun _ => { is_running := b }) g2.APPLICATION })

/-- Result of one loop-body execution: either the loop halts (error or
panic) with the actions performed so far, or it proceeds to the next
iteration carrying the freshly re-read is_running value. -/
inductive StepOut (V E : Type) where
  | halt (acts : List (Act V E)) (g : Globals V) (ex : RunExit)
  | next (acts : List (Act V E)) (g : Globals V) (is_running : Bool)
deriving DecidableEq

/-- Embeds one execution of the run-loop body (src/app.rs lines 95-124), in
source order: apply a pending swap, render the current view through the
terminal draw call, block for one event, dispatch it to the current view's
handler, then re-read is_running.  Each fallible step propagates its error
at once, and each expect or unwrap on an empty option halts with the panic
outcome. -/
def iter {V E : Type} (handle : V → E → HandlerResult V E) (g : Globals V)
    (env : Env E) : StepOut V E :=
  match swapStep g with
  | none => StepOut.halt [] g RunExit.panicked
  | some (g1, sw) =>
    match g1.VIEW with
    | none => StepOut.halt (swapActions sw) g1 RunExit.panicked
    | some v =>
      match env.drawResult with
      | Except.error e =>
          StepOut.halt (swapActions sw ++ [Act.render v]) g1 (RunExit.err e)
      | Except.ok _ =>
        match env.readResult with
        | Except.error e =>
            StepOut.halt (swapActions sw ++ [Act.render v, Act.readEvent])
              g1 (RunExit.err e)
        | Except.ok ev =>
          match applyHandler g1 (handle v ev) with
          | none =>
              StepOut.halt
                (swapActions sw ++
                  [Act.render v, Act.readEvent, Act.dispatch v ev])
                g1 RunExit.panicked
          | some g2 =>
            match (handle v ev).returned with
            | Except.error e =>
                StepOut.halt
                  (swapActions sw ++
                    [Act.render v, Act.readEvent, Act.dispatch v ev])
                  g2 (RunExit.err e)
            | Except.ok _ =>
              match g2.APPLICATION with
              | none =>
                  StepOut.halt
                    (swapActions sw ++
                      [Act.render v, Act.readEvent, Act.dispatch v ev])
                    g2 RunExit.panicked
              | some app2 =>
                  StepOut.next
                    (swapActions sw ++
                      [Act.render v, Act.readEvent, Act.dispatch v ev])
                    g2 app2.is_running

/-- Embeds the while loop and the code after it (src/app.rs lines 95-126):
while the is_running value read at the previous boundary is true, execute
one loop body per environment entry; when it is false, restore the terminal
and return Ok.  An early halt of the body returns without restoring the
terminal, exactly as the question-mark operator of the source propagates an
error past the restore call. -/
def runFrom {V E : Type} (handle : V → E → HandlerResult V E) :
    Bool → Globals V → List (Env E) →
    List (Act V E) × Globals V × RunExit
  | false, g, _ => ([Act.restore], g, RunExit.ok)
  | true, g, [] => ([], g, RunExit.blocked)
  | true, g, env :: rest =>
    match iter handle g env with
    | StepOut.halt acts g2 ex => (acts, g2, ex)
    | StepOut.next acts g2 r =>
        (acts ++ (runFrom handle r g2 rest).1, (runFrom handle r g2 rest).2)

/-- Embeds run of src/app.rs (lines 85-126): acquire the terminal surface,
read is_running through the APPLICATION lock - the expect panics when the
cell is None - then enter the loop. -/
def run {V E : Type} (handle : V → E → HandlerResult V E) (g : Globals V)
    (envs : List (Env E)) : List (Act V E) × Globals V × RunExit :=
  match g.APPLICATION with
  | none => ([Act.acquireTerminal], g, RunExit.panicked)
  | some app =>
      (Act.acquireTerminal :: (runFrom handle app.is_running g envs).1,
       (runFrom handle app.is_running g envs).2)

/-- The pending-swap invariant: whenever the CHANGE_VIEW flag is raised,
the NEXT_VIEW slot holds a view. -/
def PendingInv {V : Type} (g : Globals V) : Prop :=
  g.CHANGE_VIEW = true → (g.NEXT_VIEW).isSome = true

/-- The action list of one loop-body result. -/
def StepOut.acts {V E : Type} : StepOut V E → List (Act V E)
  | StepOut.halt a _ _ => a
  | StepOut.next a _ _ => a

/-- The shared state carried out of one loop-body result. -/
def StepOut.globals {V E : Type} : StepOut V E → Globals V
  | StepOut.halt _ g _ => g
  | StepOut.next _ g _ => g

/-- A concrete client for evaluating the model: views and events are
numbers; event 1 makes the handler request a change to view 1, event 2
makes it clear the running flag, and every other event is ignored. -/
def demoHandler : Nat → Nat → HandlerResult Nat Nat := fun v e =>
  if e = 1 then ⟨v, [1], none, Except.ok ()⟩
  else if e = 2 then ⟨v, [], some false, Except.ok ()⟩
  else ⟨v, [], none, Except.ok ()⟩

/-- The state of the process before init has run: every cell empty. -/
def gNone : Globals Nat := ⟨none, none, false, none⟩

/-- The state right after init with view 0. -/
def g0 : Globals Nat := init 0 gNone

/-!  Helper lemmas about change_view and the handler-effect interpreter. -/

theorem change_view_pres {V : Type} (w : V) (g g' : Globals V)
    (h : (change_view w g).2 = some g') :
    g'.APPLICATION = g.APPLICATION ∧ g'.VIEW = g.VIEW := by
  unfold change_view at h
  split_ifs at h <;> simp_all
  subst h
  simp

theorem change_view_total {V : Type} (w : V) (g : Globals V)
    (hA : g.APPLICATION.isSome = true) :
    ∃ g', (change_view w g).2 = some g' := by
  unfold change_view
  split_ifs with h1 h2
  · rw [Option.isNone_iff_eq_none] at h1
    rw [h1] at hA
    exact absurd hA (by simp)
  · exact ⟨g, rfl⟩
  · exact ⟨_, rfl⟩

theorem foldChanges_none {V : Type} (vcs : List V) :
    vcs.foldl (fun acc w => acc.bind (fun a => (change_view w a).2)) none
      = none := by
  induction vcs with
  | nil => rfl
  | cons w ws ih => simpa using ih

theorem foldChanges_pres {V : Type} (P : Globals V → Prop)
    (hP : ∀ (w : V) (x y : Globals V), P x → (change_view w x).2 = some y → P y)
    (vcs : List V) :
    ∀ (x y : Globals V),
      vcs.foldl (fun acc w => acc.bind (fun a => (change_view w a).2)) (some x)
        = some y → P x → P y := by
  induction vcs with
  | nil =>
    intro x y h hx
    simp at h
    subst h
    exact hx
  | cons w ws ih =>
    intro x y h hx
    simp only [List.foldl_cons, Option.some_bind] at h
    cases hc : (change_view w x).2 with
    | none =>
      rw [hc, foldChanges_none] at h
      exact absurd h (by simp)
    | some x1 =>
      rw [hc] at h
      exact ih x1 y h (hP w x x1 hx hc)

theorem foldChanges_spec {V : Type} (vcs : List V) :
    ∀ g : Globals V, g.APPLICATION.isSome = true →
      ∃ g', vcs.foldl (fun acc w => acc.bind (fun a => (change_view w a).2))
              (some g) = some g' ∧
            g'.APPLICATION = g.APPLICATION ∧ g'.VIEW = g.VIEW := by
  induction vcs with
  | nil => exact fun g _ => ⟨g, rfl, rfl, rfl⟩
  | cons w ws ih =>
    intro g h
    obtain ⟨g1, hg1⟩ := change_view_total w g h
    obtain ⟨hA1, hV1⟩ := change_view_pres w g g1 hg1
    obtain ⟨g', hfold, hA', hV'⟩ := ih g1 (by rw [hA1]; exact h)
    refine ⟨g', ?_, by rw [hA', hA1], by rw [hV', hV1]⟩
    simpa [hg1] using hfold

theorem applyHandler_spec {V E : Type} (g : Globals V) (hr : HandlerResult V E)
    (a : App) (hA : g.APPLICATION = some a) :
    ∃ g2, applyHandler g hr = some g2 ∧
      g2.VIEW = some hr.newView ∧
      g2.APPLICATION
        = some (hr.setRunning.elim a (fun b => { is_running := b })) := by
  obtain ⟨g', hfold, hA', hV'⟩ :=
    foldChanges_spec hr.viewChanges { g with VIEW := some hr.newView }
      (by simp [hA])
  simp only [applyHandler, hfold, Option.map_some]
  cases hs : hr.setRunning with
  | none => exact ⟨g', rfl, by simp_all, by simp_all [hA]⟩
  | some b =>
    refine ⟨_, rfl, by simp_all, ?_⟩
    simp only [Globals.APPLICATION]
    rw [show g'.APPLICATION = some a from by simp_all [hA]]
    simp [Option.elim]

/-!  Helper lemmas about the pending-swap invariant. -/

theorem change_view_inv {V : Type} (w : V) (g g' : Globals V)
    (h : PendingInv g) (hc : (change_view w g).2 = some g') : PendingInv g' := by
  unfold change_view at hc
  split_ifs at hc with h1 h2
  · simp at hc
    subst hc
    exact h
  · simp at hc
    subst hc
    intro _
    simp

theorem applyHandler_inv {V E : Type} (g : Globals V) (hr : HandlerResult V E)
    (g2 : Globals V) (h : PendingInv g) (hap : applyHandler g hr = some g2) :
    PendingInv g2 := by
  simp only [applyHandler] at hap
  rw [Option.map_eq_some'] at hap
  obtain ⟨gm, hm, hf⟩ := hap
  have hgm : PendingInv gm := by
    refine foldChanges_pres PendingInv
      (fun w x y hx hxy => change_view_inv w x y hx hxy)
      hr.viewChanges _ gm hm ?_
    intro hc
    exact h hc
  subst hf
  cases hr.setRunning with
  | none => exact hgm
  | some b =>
    intro hc
    exact hgm hc

theorem swapStep_inv {V : Type} (g g1 : Globals V) (sw : Option V)
    (h : swapStep g = some (g1, sw)) (hg : PendingInv g) : PendingInv g1 := by
  unfold swapStep at h
  split_ifs at h with h1
  · cases hn : g.NEXT_VIEW with
    | none =>
      rw [hn] at h
      simp at h
    | some nv =>
      rw [hn] at h
      simp only [Option.some.injEq, Prod.mk.injEq] at h
      obtain ⟨h4, h5⟩ := h
      subst h4
      intro hc
      simp at hc
  · simp only [Option.some.injEq, Prod.mk.injEq] at h
    obtain ⟨h4, h5⟩ := h
    subst h4
    exact hg

theorem iter_inv {V E : Type} (handle : V → E → HandlerResult V E)
    (g : Globals V) (env : Env E) (h : PendingInv g) :
    PendingInv (iter handle g env).globals := by
  unfold iter
  split
  · simpa [StepOut.globals] using h
  next g1 sw hsw =>
    have h1 : PendingInv g1 := swapStep_inv g g1 sw hsw h
    split
    · simpa [StepOut.globals] using h1
    next v hv =>
      split
      · simpa [StepOut.globals] using h1
      next u hd =>
        split
        · simpa [StepOut.globals] using h1
        next ev he =>
          split
          · simpa [StepOut.globals] using h1
          next g2 hap =>
            have h2 : PendingInv g2 := applyHandler_inv g1 _ g2 h1 hap
            split
            · simpa [StepOut.globals] using h2
            next u2 hret =>
              split
              · simpa [StepOut.globals] using h2
              next app2 hA2 => simpa [StepOut.globals] using h2

theorem runFrom_inv {V E : Type} (handle : V → E → HandlerResult V E) :
    ∀ (envs : List (Env E)) (r : Bool) (g : Globals V), PendingInv g →
      PendingInv (runFrom handle r g envs).2.1 := by
  intro envs
  induction envs with
  | nil =>
    intro r g h
    cases r <;> simpa [runFrom] using h
  | cons env rest ih =>
    intro r g h
    cases r
    · simpa [runFrom] using h
    · simp only [runFrom]
      split
      next acts g2 ex hit =>
        have h2 := iter_inv handle g env h
        rw [hit] at h2
        simpa [StepOut.globals] using h2
      next acts g2 r2 hit =>
        have h2 := iter_inv handle g env h
        rw [hit] at h2
        simp only [StepOut.globals] at h2
        simpa using ih r2 g2 h2

/-!  Helper lemmas about action traces of the loop. -/

theorem runFrom_cons_acts {V E : Type} (handle : V → E → HandlerResult V E)
    (g : Globals V) (env : Env E) (rest : List (Env E)) :
    ∃ tl, (runFrom handle true g (env :: rest)).1
            = (iter handle g env).acts ++ tl := by
  simp only [runFrom]
  split
  next acts g2 ex hit => exact ⟨[], by simp [hit, StepOut.acts]⟩
  next acts g2 r2 hit =>
    exact ⟨(runFrom handle r2 g2 rest).1, by simp [hit, StepOut.acts]⟩

theorem iter_acts_swap_first {V E : Type} (handle : V → E → HandlerResult V E)
    (g : Globals V) (env : Env E) (w : V)
    (hC : g.CHANGE_VIEW = true) (hN : g.NEXT_VIEW = some w) :
    ∃ tl, (iter handle g env).acts = Act.swap w :: Act.render w :: tl := by
  obtain ⟨gA, gV, gC, gN⟩ := g
  simp only [Globals.CHANGE_VIEW] at hC
  simp only [Globals.NEXT_VIEW] at hN
  subst hC
  subst hN
  unfold iter
  simp only [swapStep, if_pos]
  cases hd : env.drawResult with
  | error e => exact ⟨[], by simp [StepOut.acts, swapActions]⟩
  | ok u =>
    cases he : env.readResult with
    | error e => exact ⟨[Act.readEvent], by simp [StepOut.acts, swapActions]⟩
    | ok ev =>
      cases hap : applyHandler
          { APPLICATION := gA, VIEW := some w, CHANGE_VIEW := false,
            NEXT_VIEW := none } (handle w ev) with
      | none =>
        exact ⟨[Act.readEvent, Act.dispatch w ev],
          by simp [hap, StepOut.acts, swapActions]⟩
      | some g2 =>
        cases hret : (handle w ev).returned with
        | error e =>
          exact ⟨[Act.readEvent, Act.dispatch w ev],
            by simp [hap, hret, StepOut.acts, swapActions]⟩
        | ok u2 =>
          cases hA2 : g2.APPLICATION with
          | none =>
            exact ⟨[Act.readEvent, Act.dispatch w ev],
              by simp [hap, hret, hA2, StepOut.acts, swapActions]⟩
          | some app2 =>
            exact ⟨[Act.readEvent, Act.dispatch w ev],
              by simp [hap, hret, hA2, StepOut.acts, swapActions]⟩

/-!  Claim theorems. -/

/-- C1: the claim says the terminal surface is restored exactly once on
every exit of run, in particular before an event-source read error is
propagated.  The code does the opposite: the question-mark operator on the
event read returns from run before the restore call, which sits only after
the loop.  This theorem evaluates the embedded run at the failing input -
initialized state, first event read fails with error 7 - and shows the
error is propagated while no restore action ever happens. -/
theorem C1_read_error_skips_restore :
    (run demoHandler g0 [⟨Except.ok (), Except.error 7⟩]).2.2
        = RunExit.err 7 ∧
    Act.restore ∉ (run demoHandler g0 [⟨Except.ok (), Except.error 7⟩]).1 := by
  decide

/-- C4: init is idempotent per cell: an already-set VIEW or APPLICATION is
left untouched by a later init (with any view), and in a fully initialized
state init is the identity; each cell is written only when it is None, the
VIEW cell to the given view and the APPLICATION cell to a running App. -/
theorem C4_init_idempotent {V : Type} (v : V) (g : Globals V) :
    (g.VIEW.isSome = true → (init v g).VIEW = g.VIEW) ∧
    (g.APPLICATION.isSome = true → (init v g).APPLICATION = g.APPLICATION) ∧
    (g.VIEW = none → (init v g).VIEW = some v) ∧
    (g.APPLICATION = none →
      (init v g).APPLICATION = some { is_running := true }) ∧
    (g.VIEW.isSome = true → g.APPLICATION.isSome = true → init v g = g) := by
  obtain ⟨gA, gV, gC, gN⟩ := g
  cases gV <;> cases gA <;> simp [init]

/-- C4 witness: a second init with view 7 leaves the state produced by init
with view 0 unchanged, while on the empty state init sets both cells. -/
theorem C4_init_idempotent_witness :
    init 7 g0 = g0 ∧ (init 7 gNone).VIEW = some 7 := by
  refine ⟨(C4_init_idempotent 7 g0).2.2.2.2 (by decide) (by decide), ?_⟩
  exact (C4_init_idempotent 7 gNone).2.2.1 (by decide)

/-- C6 counterexample: the claim says all three shared cells are governed
by a reader-writer lock discipline; the pending-swap cell is declared as
plain unsynchronized mutable statics in src/app.rs, with no lock at all. -/
theorem C6_pendingSwap_unguarded :
    guardOf Cell.pendingSwap ≠ Guard.rwlock := by
  decide

/-- C6 amended: APPLICATION and VIEW are each guarded by a reader-writer
lock, but the pending-swap pair is unsynchronized mutable statics; within
the (sequential) run loop, a read access to the active view for render and
a write access for dispatch are distinct atomic steps of the trace, so the
two never coincide. -/
theorem C6_lock_discipline :
    guardOf Cell.APPLICATION = Guard.rwlock ∧
    guardOf Cell.VIEW = Guard.rwlock ∧
    guardOf Cell.pendingSwap = Guard.unsyncStaticMut ∧
    (∀ (V E : Type) (handle : V → E → HandlerResult V E) (g : Globals V)
        (envs : List (Env E)) (i : Nat) (v w : V) (e : E),
      (run handle g envs).1.get? i = some (Act.render v) →
      (run handle g envs).1.get? i ≠ some (Act.dispatch w e)) := by
  refine ⟨rfl, rfl, rfl, ?_⟩
  intro V E handle g envs i v w e h1 h2
  rw [h1] at h2
  simp at h2

/-- C6 amended witness: in the concrete one-iteration run the position of
the render action is not a dispatch action. -/
theorem C6_lock_discipline_witness :
    (run demoHandler g0 [⟨Except.ok (), Except.ok 1⟩]).1.get? 1
      ≠ some (Act.dispatch (0 : Nat) (1 : Nat)) :=
  C6_lock_discipline.2.2.2 Nat Nat demoHandler g0
    [⟨Except.ok (), Except.ok 1⟩] 1 0 0 1 (by decide)

/-- C8: calling change_view before init is an unrecoverable failure (the
source panics on the APPLICATION read), modelled by the none result; once
APPLICATION is set, change_view always succeeds. -/
theorem C8_change_view_requires_init {V : Type} (v : V) (g : Globals V) :
    (g.APPLICATION = none → (change_view v g).2 = none) ∧
    (g.APPLICATION.isSome = true → ((change_view v g).2).isSome = true) := by
  obtain ⟨gA, gV, gC, gN⟩ := g
  cases gA <;> cases gC <;> simp [change_view]

/-- C8 witness: change_view fails on the uninitialized state and succeeds
on the initialized one. -/
theorem C8_change_view_requires_init_witness :
    (change_view 5 gNone).2 = none ∧
    ((change_view 5 g0).2).isSome = true :=
  ⟨(C8_change_view_requires_init 5 gNone).1 (by decide),
   (C8_change_view_requires_init 5 g0).2 (by decide)⟩

/-- C9: calling run before init acquires the terminal and then panics on
the expect that reads is_running from the empty APPLICATION cell - the
outcome is the panic exit, not a normal return and not an error value. -/
theorem C9_run_requires_init {V E : Type} (handle : V → E → HandlerResult V E)
    (g : Globals V) (envs : List (Env E)) (h : g.APPLICATION = none) :
    run handle g envs = ([Act.acquireTerminal], g, RunExit.panicked) := by
  simp [run, h]

/-- C9 witness: run on the uninitialized state panics at once. -/
theorem C9_run_requires_init_witness :
    run demoHandler gNone ([] : List (Env Nat))
      = ([Act.acquireTerminal], gNone, RunExit.panicked) :=
  C9_run_requires_init demoHandler gNone [] rfl

/-- C3: with a swap already pending, a second change_view call is a silent
no-op: after change_view v1 the slot holds v1, change_view v2 leaves the
state untouched, and the swap consumed at the next iteration boundary
installs v1, never v2, leaving the pending state empty. -/
theorem C3_first_requested_wins {V : Type} (v1 v2 : V) (g : Globals V)
    (hA : g.APPLICATION.isSome = true) (hF : g.CHANGE_VIEW = false) :
    ∃ g1 : Globals V,
      (change_view v1 g).2 = some g1 ∧
      g1.NEXT_VIEW = some v1 ∧
      (change_view v2 g1).2 = some g1 ∧
      ∃ g2 : Globals V,
        swapStep g1 = some (g2, some v1) ∧
        g2.VIEW = some v1 ∧ g2.CHANGE_VIEW = false ∧ g2.NEXT_VIEW = none := by
  obtain ⟨gA, gV, gC, gN⟩ := g
  cases gA with
  | none => simp at hA
  | some a =>
    have hF' : gC = false := hF
    subst hF'
    exact ⟨_, rfl, rfl, rfl, _, rfl, rfl, rfl, rfl⟩

/-- C3 witness: on the initialized state, queueing view 5 and then view 6
keeps 5 queued, and the consuming swap installs 5. -/
theorem C3_first_requested_wins_witness :
    ∃ g1 : Globals Nat,
      (change_view 5 g0).2 = some g1 ∧
      g1.NEXT_VIEW = some 5 ∧
      (change_view 6 g1).2 = some g1 ∧
      ∃ g2 : Globals Nat,
        swapStep g1 = some (g2, some 5) ∧
        g2.VIEW = some 5 ∧ g2.CHANGE_VIEW = false ∧ g2.NEXT_VIEW = none :=
  C3_first_requested_wins 5 6 g0 (by decide) (by decide)

/-- C7: after initialization, change_view succeeds and touches neither the
active VIEW cell nor APPLICATION; it never takes a write lock on the
active-view cell (indeed the only cell it ever writes is the pending-swap
pair). -/
theorem C7_change_view_frame {V : Type} (v : V) (g : Globals V)
    (hA : g.APPLICATION.isSome = true) :
    ∃ g' : Globals V,
      (change_view v g).2 = some g' ∧
      g'.VIEW = g.VIEW ∧
      g'.APPLICATION = g.APPLICATION ∧
      Access.writeLock Cell.VIEW ∉ (change_view v g).1 ∧
      (∀ c : Cell, Access.unsyncWrite c ∈ (change_view v g).1 →
        c = Cell.pendingSwap) := by
  obtain ⟨g', hg⟩ := change_view_total v g hA
  obtain ⟨hA', hV'⟩ := change_view_pres v g g' hg
  refine ⟨g', hg, hV', hA', ?_, ?_⟩
  · unfold change_view
    split_ifs <;> simp
  · unfold change_view
    split_ifs <;> intro c hc <;> simp_all

/-- C7 witness: a concrete change_view call on the initialized state. -/
theorem C7_change_view_frame_witness :
    ∃ g' : Globals Nat,
      (change_view 5 g0).2 = some g' ∧
      g'.VIEW = g0.VIEW ∧
      g'.APPLICATION = g0.APPLICATION ∧
      Access.writeLock Cell.VIEW ∉ (change_view 5 g0).1 ∧
      (∀ c : Cell, Access.unsyncWrite c ∈ (change_view 5 g0).1 →
        c = Cell.pendingSwap) :=
  C7_change_view_frame 5 g0 (by decide)

/-- C5: when the dispatched handler clears the running flag and returns Ok,
the loop performs no further render and no further event read after that
dispatch: the whole run is exactly acquire, render, read, dispatch,
restore, and run returns the normal exit, with the rest of the event
stream untouched. -/
theorem C5_stop_terminates {V E : Type} (handle : V → E → HandlerResult V E)
    (g : Globals V) (v v' : V) (e : E) (vcs : List V)
    (env : Env E) (rest : List (Env E))
    (hA : g.APPLICATION = some { is_running := true })
    (hV : g.VIEW = some v)
    (hF : g.CHANGE_VIEW = false)
    (hd : env.drawResult = Except.ok ())
    (he : env.readResult = Except.ok e)
    (hH : handle v e = { newView := v', viewChanges := vcs,
                         setRunning := some false,
                         returned := Except.ok () }) :
    ∃ gF : Globals V,
      run handle g (env :: rest)
        = ([Act.acquireTerminal, Act.render v, Act.readEvent,
            Act.dispatch v e, Act.restore], gF, RunExit.ok) ∧
      gF.APPLICATION = some { is_running := false } := by
  obtain ⟨gA, gV, gC, gN⟩ := g
  obtain ⟨ed, er⟩ := env
  have hA' : gA = some { is_running := true } := hA
  have hV' : gV = some v := hV
  have hF' : gC = false := hF
  have hd' : ed = Except.ok () := hd
  have he' : er = Except.ok e := he
  subst hA' hV' hF' hd' he'
  obtain ⟨g2, hap, hV2, hA2⟩ :=
    applyHandler_spec
      (⟨some { is_running := true }, some v, false, gN⟩ : Globals V)
      (handle v e) { is_running := true } rfl
  have hA2' : g2.APPLICATION = some { is_running := false } := by
    rw [hA2, hH]
    rfl
  rw [hH] at hap
  have hIter :
      iter handle (⟨some { is_running := true }, some v, false, gN⟩ : Globals V)
          ⟨Except.ok (), Except.ok e⟩
        = StepOut.next [Act.render v, Act.readEvent, Act.dispatch v e]
            g2 false := by
    unfold iter
    simp [swapStep, swapActions, hap, hH, hA2']
  refine ⟨g2, ?_, hA2'⟩
  simp [run, runFrom, hIter]

/-- C5 witness: event 2 makes the demo handler stop the application; the
run consists of one full iteration followed by the restore. -/
theorem C5_stop_terminates_witness :
    ∃ gF : Globals Nat,
      run demoHandler g0 [⟨Except.ok (), Except.ok 2⟩]
        = ([Act.acquireTerminal, Act.render 0, Act.readEvent,
            Act.dispatch 0 2, Act.restore], gF, RunExit.ok) ∧
      gF.APPLICATION = some { is_running := false } :=
  C5_stop_terminates demoHandler g0 0 0 2 [] ⟨Except.ok (), Except.ok 2⟩ []
    rfl rfl rfl rfl rfl rfl

/-- C2: a view change requested by the handler during dispatch is deferred:
the iteration in which the request is made renders the old view before the
dispatch and performs nothing after it, the requested view sits queued in
the pending slot at the iteration boundary, and the next iteration (if the
loop continues) begins by applying the swap and then renders the new view
for the first time - never mid-iteration. -/
theorem C2_swap_deferred {V E : Type} (handle : V → E → HandlerResult V E)
    (g : Globals V) (v v' w : V) (e : E) (env : Env E) (rest : List (Env E))
    (hA : g.APPLICATION = some { is_running := true })
    (hV : g.VIEW = some v)
    (hF : g.CHANGE_VIEW = false)
    (hd : env.drawResult = Except.ok ())
    (he : env.readResult = Except.ok e)
    (hH : handle v e = { newView := v', viewChanges := [w],
                         setRunning := none, returned := Except.ok () }) :
    ∃ g2 : Globals V,
      iter handle g env
        = StepOut.next [Act.render v, Act.readEvent, Act.dispatch v e]
            g2 true ∧
      g2.VIEW = some v' ∧ g2.CHANGE_VIEW = true ∧ g2.NEXT_VIEW = some w ∧
      runFrom handle true g (env :: rest)
        = ([Act.render v, Act.readEvent, Act.dispatch v e]
             ++ (runFrom handle true g2 rest).1,
           (runFrom handle true g2 rest).2) ∧
      (∀ (env2 : Env E) (rest2 : List (Env E)), rest = env2 :: rest2 →
        ∃ tl, (runFrom handle true g2 rest).1
                = Act.swap w :: Act.render w :: tl) := by
  obtain ⟨gA, gV, gC, gN⟩ := g
  obtain ⟨ed, er⟩ := env
  have hA' : gA = some { is_running := true } := hA
  have hV' : gV = some v := hV
  have hF' : gC = false := hF
  have hd' : ed = Except.ok () := hd
  have he' : er = Except.ok e := he
  subst hA' hV' hF' hd' he'
  have hIter :
      iter handle
          (⟨some { is_running := true }, some v, false, gN⟩ : Globals V)
          ⟨Except.ok (), Except.ok e⟩
        = StepOut.next [Act.render v, Act.readEvent, Act.dispatch v e]
            (⟨some { is_running := true }, some v', true, some w⟩ : Globals V)
            true := by
    unfold iter
    simp [swapStep, swapActions, hH, applyHandler, change_view]
  refine ⟨⟨some { is_running := true }, some v', true, some w⟩,
    hIter, rfl, rfl, rfl, ?_, ?_⟩
  · simp [runFrom, hIter]
  · intro env2 rest2 hr2
    subst hr2
    obtain ⟨tl1, h1⟩ := iter_acts_swap_first handle
      (⟨some { is_running := true }, some v', true, some w⟩ : Globals V)
      env2 w rfl rfl
    obtain ⟨tl2, h2⟩ := runFrom_cons_acts handle
      (⟨some { is_running := true }, some v', true, some w⟩ : Globals V)
      env2 rest2
    refine ⟨tl1 ++ tl2, ?_⟩
    rw [h2, h1]
    simp

/-- C2 witness: the demo handler requests view 1 on event 1; the iteration
renders view 0 only, the request sits queued at the boundary, and the next
iteration begins with the swap followed by the first render of view 1. -/
theorem C2_swap_deferred_witness :
    ∃ g2 : Globals Nat,
      iter demoHandler g0 ⟨Except.ok (), Except.ok 1⟩
        = StepOut.next [Act.render 0, Act.readEvent, Act.dispatch 0 1]
            g2 true ∧
      g2.VIEW = some 0 ∧ g2.CHANGE_VIEW = true ∧ g2.NEXT_VIEW = some 1 ∧
      runFrom demoHandler true g0
          [⟨Except.ok (), Except.ok 1⟩, ⟨Except.ok (), Except.ok 2⟩]
        = ([Act.render 0, Act.readEvent, Act.dispatch 0 1]
             ++ (runFrom demoHandler true g2
                  [⟨Except.ok (), Except.ok 2⟩]).1,
           (runFrom demoHandler true g2 [⟨Except.ok (), Except.ok 2⟩]).2) ∧
      (∀ (env2 : Env Nat) (rest2 : List (Env Nat)),
          [(⟨Except.ok (), Except.ok 2⟩ : Env Nat)] = env2 :: rest2 →
        ∃ tl, (runFrom demoHandler true g2 [⟨Except.ok (), Except.ok 2⟩]).1
                = Act.swap 1 :: Act.render 1 :: tl) :=
  C2_swap_deferred demoHandler g0 0 0 1 1 ⟨Except.ok (), Except.ok 1⟩
    [⟨Except.ok (), Except.ok 2⟩] rfl rfl rfl rfl rfl rfl

/-- C10: the pending-swap invariant - a raised CHANGE_VIEW flag always
comes with a filled NEXT_VIEW slot - is preserved by init, by every
successful change_view, and by the run loop; under it the unwrap that
consumes the pending view cannot panic, and immediately after a swap is
applied the flag is cleared and the slot is empty again. -/
theorem C10_pending_invariant (V E : Type) :
    (∀ (v : V) (g : Globals V), PendingInv g → PendingInv (init v g)) ∧
    (∀ (v : V) (g g' : Globals V), PendingInv g →
      (change_view v g).2 = some g' → PendingInv g') ∧
    (∀ g : Globals V, PendingInv g → (swapStep g).isSome = true) ∧
    (∀ (g g1 : Globals V) (w : V), swapStep g = some (g1, some w) →
      g1.CHANGE_VIEW = false ∧ g1.NEXT_VIEW = none) ∧
    (∀ (handle : V → E → HandlerResult V E) (r : Bool) (g : Globals V)
        (envs : List (Env E)),
      PendingInv g → PendingInv (runFrom handle r g envs).2.1) := by
  refine ⟨?_, ?_, ?_, ?_, ?_⟩
  · intro v g h
    simp only [init]
    split_ifs <;> intro hc <;> exact h hc
  · exact fun v g g' h hc => change_view_inv v g g' h hc
  · intro g h
    unfold swapStep
    split_ifs with h1
    · cases hn : g.NEXT_VIEW with
      | none =>
        have h2 := h h1
        rw [hn] at h2
        simp at h2
      | some nv => simp [hn]
    · simp
  · intro g g1 w hsw
    unfold swapStep at hsw
    split_ifs at hsw with h1
    · cases hn : g.NEXT_VIEW with
      | none =>
        rw [hn] at hsw
        simp at hsw
      | some nv =>
        rw [hn] at hsw
        simp only [Option.some.injEq, Prod.mk.injEq] at hsw
        obtain ⟨h4, h5⟩ := hsw
        subst h4
        exact ⟨rfl, rfl⟩
    · simp only [Option.some.injEq, Prod.mk.injEq] at hsw
      exact absurd hsw.2 (by simp)
  · exact fun handle r g envs h => runFrom_inv handle envs r g h

/-- C10 witness: the invariant holds after init on the empty state, the
swap consumption succeeds on a concrete pending state, and the invariant
survives a concrete run. -/
theorem C10_pending_invariant_witness :
    PendingInv (init 3 gNone) ∧
    (swapStep (⟨some { is_running := true }, some 0, true, some 1⟩ :
        Globals Nat)).isSome = true ∧
    PendingInv (runFrom demoHandler true g0
        [⟨Except.ok (), Except.ok 1⟩]).2.1 :=
  ⟨(C10_pending_invariant Nat Nat).1 3 gNone
      (by intro hc; exact absurd hc (by decide)),
   (C10_pending_invariant Nat Nat).2.2.1 _ (by intro _; decide),
   (C10_pending_invariant Nat Nat).2.2.2.2 demoHandler true g0 _
      (by intro hc; exact absurd hc (by decide))⟩
